import Mathlib

/-!
Verification of the network speed analyzer dashboard.

This file gives a shallow embedding of the program's core logic and proves
or refutes the specification claims about it:

- the quality classifier `getNetworkQuality` (NetworkAnalyzer.tsx),
- the test record store `appendStore` (NetworkAnalyzer.tsx, handleTestComplete),
- the synthetic measurement sequencer (SpeedTest component:
  `measurePing`, `measureDownloadSpeed`, `measureUploadSpeed`,
  `measurePacketLoss`, `runSpeedTest`, `stopTest`),
- the history view (TestHistory component: `filteredData`, `handleSort`,
  `exportToCSV`, `exportToJSON`),
- the chart aggregation (PerformanceCharts component).

JavaScript numbers are modelled as rationals (all values the program
produces are decimal-rounded, so no claim here depends on binary floating
point behaviour).  Locale-dependent date/time formatting
(`toLocaleDateString` / `toLocaleTimeString`) is modelled by abstract
formatting functions passed as parameters.  The single-threaded JS event
loop is modelled, where a claim needs it, as a list of atomic segments
(the code between consecutive `await` points) acting on the UI state.
-/

/-- The four quality tiers of `NetworkData.quality`. -/
inductive Quality
  | excellent
  | good
  | fair
  | poor
deriving DecidableEq

/-- The string label of a quality tier, as stored in the TS union type. -/
def qualityLabel : Quality → String
  | .excellent => "excellent"
  | .good => "good"
  | .fair => "fair"
  | .poor => "poor"

/-- The `NetworkData` record interface of NetworkAnalyzer.tsx.
`download`, `upload` (Mbps) and `packetLoss` (%) are JS numbers modelled
as rationals; `ping`, `jitter` (ms, produced by `Math.round`) and
`timestamp` (epoch ms) are integers. -/
structure NetworkData where
  download : ℚ
  upload : ℚ
  ping : ℤ
  jitter : ℤ
  packetLoss : ℚ
  timestamp : ℤ
  quality : Quality
deriving DecidableEq

/-- `getNetworkQuality` from NetworkAnalyzer.tsx: thresholds evaluated in
order, first match wins. -/
def getNetworkQuality (download : ℚ) (ping : ℚ) : Quality :=
  if 100 ≤ download ∧ ping ≤ 20 then .excellent
  else if 50 ≤ download ∧ ping ≤ 50 then .good
  else if 25 ≤ download ∧ ping ≤ 100 then .fair
  else .poor

/-- JS `Math.round`: round half toward positive infinity. -/
def jsRound (q : ℚ) : ℤ := ⌊q + 1 / 2⌋

/-- `Math.round(x * 10) / 10`, the one-decimal rounding used by the
download and upload measurements. -/
def round1 (q : ℚ) : ℚ := (jsRound (q * 10) : ℚ) / 10

/-- `Math.round(x * 100) / 100`, the two-decimal rounding used by the
packet loss measurement. -/
def round2 (q : ℚ) : ℚ := (jsRound (q * 100) : ℚ) / 100

/-- `handleTestComplete` from NetworkAnalyzer.tsx:
`setTestHistory(prev => [results, ...prev.slice(0, 99)])`. -/
def appendStore (r : NetworkData) (s : List NetworkData) : List NetworkData :=
  r :: s.take 99

/-- Appending a whole list of records in order, starting from a given store. -/
def appendAll (s : List NetworkData) (rs : List NetworkData) : List NetworkData :=
  rs.foldl (fun acc r => appendStore r acc) s

/-- A fixed sample record used for concrete witnesses. -/
def sampleRec : NetworkData :=
  { download := 80, upload := 20, ping := 15, jitter := 3
    packetLoss := 1 / 2, timestamp := 1700000000000
    quality := getNetworkQuality 80 15 }

/-- A second sample record, distinguishable from `sampleRec`. -/
def sampleRec2 : NetworkData :=
  { download := 10, upload := 2, ping := 150, jitter := 40
    packetLoss := 3 / 2, timestamp := 1700000060000
    quality := getNetworkQuality 10 150 }

theorem appendAll_append (s : List NetworkData) (rs : List NetworkData) (r : NetworkData) :
    appendAll s (rs ++ [r]) = appendStore r (appendAll s rs) := by
  simp [appendAll]

theorem appendAll_nil_eq (rs : List NetworkData) :
    appendAll [] rs = rs.reverse.take 100 := by
  induction rs using List.reverseRecOn with
  | nil => simp [appendAll]
  | append_singleton rs r ih =>
      rw [appendAll_append, ih]
      simp [appendStore, List.take_take]

/-- Claim C3: the store's append prepends and truncates so the store never
exceeds 100 entries; after 105 sequential appends from empty, the store
holds exactly the 100 most recently appended records, most-recent-first
(equivalently, the reverse of the last 100 appended); and this is the only
mutation applied to the store. -/
theorem store_append_bounded_and_most_recent (rs : List NetworkData) :
    appendAll [] rs = rs.reverse.take 100 ∧
    (appendAll [] rs).length ≤ 100 ∧
    (∀ (s : List NetworkData) (r : NetworkData),
        appendStore r s = r :: s.take 99 ∧ (appendStore r s).length ≤ 100) ∧
    (rs.length = 105 → appendAll [] rs = (rs.drop 5).reverse) := by
  refine ⟨appendAll_nil_eq rs, ?_, ?_, ?_⟩
  · rw [appendAll_nil_eq]
    exact (List.length_take _ _).le.trans (min_le_left _ _)
  · intro s r
    refine ⟨rfl, ?_⟩
    simp [appendStore]
  · intro h105
    rw [appendAll_nil_eq]
    have hsplit : rs.reverse = (rs.drop 5).reverse ++ (rs.take 5).reverse := by
      rw [← List.reverse_append, List.take_append_drop]
    rw [hsplit]
    exact List.take_left' (by simp [h105])

/-- Witness for C3: 105 sequential appends of sample records leave exactly
the last 100, most-recent-first. -/
theorem store_append_bounded_and_most_recent_witness :
    (List.replicate 105 sampleRec).length = 105 ∧
    appendAll [] (List.replicate 105 sampleRec) =
      ((List.replicate 105 sampleRec).drop 5).reverse := by
  refine ⟨by simp, ?_⟩
  exact (store_append_bounded_and_most_recent (List.replicate 105 sampleRec)).2.2.2 (by simp)

/-- Claim C4: the quality classifier is a total deterministic function of
(download, ping), evaluating its thresholds in order with the first match
winning; the four tiers are mutually exclusive and exhaustive. -/
theorem classifier_thresholds_first_match (d p : ℚ) :
    (getNetworkQuality d p = .excellent ↔ 100 ≤ d ∧ p ≤ 20) ∧
    (getNetworkQuality d p = .good ↔ ¬(100 ≤ d ∧ p ≤ 20) ∧ 50 ≤ d ∧ p ≤ 50) ∧
    (getNetworkQuality d p = .fair ↔
      ¬(100 ≤ d ∧ p ≤ 20) ∧ ¬(50 ≤ d ∧ p ≤ 50) ∧ 25 ≤ d ∧ p ≤ 100) ∧
    (getNetworkQuality d p = .poor ↔
      ¬(100 ≤ d ∧ p ≤ 20) ∧ ¬(50 ≤ d ∧ p ≤ 50) ∧ ¬(25 ≤ d ∧ p ≤ 100)) := by
  unfold getNetworkQuality
  split_ifs with h1 h2 h3 <;> simp_all

/-- Result of the ping phase of the sequencer. -/
structure PingResult where
  ping : ℤ
  jitter : ℤ
deriving DecidableEq

/-- One iteration of the 5-sample loop of `measurePing` (SpeedTest): the
try-block pushes the elapsed fetch time; the catch-block pushes the
randomized fallback `100 + Math.random() * 50`.  `fetchOutcome i` is the
i-th fetch: elapsed milliseconds on success, or an exception;
`fallbackRand i` is the `Math.random()` draw used if sample i fails. -/
def pingSample (fetchOutcome : Fin 5 → Except Unit ℚ) (fallbackRand : Fin 5 → ℚ)
    (i : Fin 5) : ℚ :=
  match fetchOutcome i with
  | .ok elapsed => elapsed
  | .error _ => 100 + fallbackRand i * 50

/-- The `measurements` array after the loop of `measurePing`. -/
def pingSamples (fetchOutcome : Fin 5 → Except Unit ℚ) (fallbackRand : Fin 5 → ℚ) :
    List ℚ :=
  List.ofFn (pingSample fetchOutcome fallbackRand)

/-- JS `Math.max(...arr)` for the nonempty arrays used here (with no
arguments JS returns -Infinity; that case is unreachable in this code, the
array always has 5 elements). -/
def jsMax : List ℚ → ℚ
  | [] => 0
  | h :: t => t.foldl max h

/-- JS `Math.min(...arr)`, see `jsMax`. -/
def jsMin : List ℚ → ℚ
  | [] => 0
  | h :: t => t.foldl min h

/-- `measurePing` from SpeedTest: mean of the 5 samples rounded with
`Math.round` as `ping`, max minus min rounded as `jitter`. -/
def measurePing (f : Fin 5 → Except Unit ℚ) (b : Fin 5 → ℚ) : PingResult :=
  let ms := pingSamples f b
  { ping := jsRound (ms.foldl (· + ·) 0 / (ms.length : ℚ))
    jitter := jsRound (jsMax ms - jsMin ms) }

/-- The `testSizes = [1, 2, 5]` of `measureDownloadSpeed`. -/
def downloadSizes : Fin 3 → ℚ := ![1, 2, 5]

/-- `measureDownloadSpeed` from SpeedTest.  `elapsedSec i` is the elapsed
time in seconds measured around the simulated transfer of sample i (the
awaited timeout); per sample the speed is `size * 8 / duration`, and the
result is the mean of the three samples rounded to one decimal.  The
catch-branch fallback is unreachable: the awaited promise only resolves. -/
def measureDownloadSpeed (elapsedSec : Fin 3 → ℚ) : ℚ :=
  round1 ((List.ofFn fun i => downloadSizes i * 8 / elapsedSec i).foldl (· + ·) 0 / 3)

/-- JS `v || dflt` on a possibly-absent number: `undefined` and `0` are
both falsy. -/
def jsOrDefault (v : Option ℚ) (dflt : ℚ) : ℚ :=
  match v with
  | none => dflt
  | some x => if x = 0 then dflt else x

/-- `measureUploadSpeed` from SpeedTest:
`(currentTest.download || 50) * (0.1 + Math.random() * 0.4)` rounded to
one decimal.  `staleDownload` is `currentTest.download` as seen by the
closure in which the running `runSpeedTest` callback was created: React
state set during the run is only visible to later renders, so this is
never the download measured by the current run (on a first run it is
absent and the default 50 is used). -/
def measureUploadSpeed (staleDownload : Option ℚ) (r : ℚ) : ℚ :=
  round1 (jsOrDefault staleDownload 50 * (1 / 10 + r * (2 / 5)))

/-- `measurePacketLoss` from SpeedTest: `Math.random() * 2` rounded to two
decimals. -/
def measurePacketLoss (r : ℚ) : ℚ := round2 (r * 2)

/-- The random draws, observed timings and captured state that determine
one run of `runSpeedTest`. -/
structure RunInputs where
  pingFetch : Fin 5 → Except Unit ℚ
  pingFallback : Fin 5 → ℚ
  dlElapsedSec : Fin 3 → ℚ
  upRand : ℚ
  plRand : ℚ
  now : ℤ
  staleDownload : Option ℚ

/-- The `results` record assembled by one run of `runSpeedTest` and handed
to `onTestComplete`. -/
def runResults (inp : RunInputs) : NetworkData :=
  let pr := measurePing inp.pingFetch inp.pingFallback
  let d := measureDownloadSpeed inp.dlElapsedSec
  { download := d
    upload := measureUploadSpeed inp.staleDownload inp.upRand
    ping := pr.ping
    jitter := pr.jitter
    packetLoss := measurePacketLoss inp.plRand
    timestamp := inp.now
    quality := getNetworkQuality d (pr.ping : ℚ) }

/-- The test phase union of the SpeedTest component. -/
inductive TestPhase
  | idle
  | ping
  | download
  | upload
  | complete
deriving DecidableEq

/-- The `currentTest` display state (a partially filled record). -/
structure CurrentTest where
  download : Option ℚ := none
  upload : Option ℚ := none
  ping : Option ℤ := none
  jitter : Option ℤ := none
  packetLoss : Option ℚ := none
  timestamp : Option ℤ := none
  quality : Option Quality := none
deriving DecidableEq

/-- `currentTest` fully populated with a completed record. -/
def fullCurrent (r : NetworkData) : CurrentTest :=
  { download := some r.download, upload := some r.upload, ping := some r.ping
    jitter := some r.jitter, packetLoss := some r.packetLoss
    timestamp := some r.timestamp, quality := some r.quality }

/-- The component-level UI state touched by the sequencer: the SpeedTest
local state plus the `testHistory` store owned by NetworkAnalyzer. -/
structure UIState where
  isRunning : Bool
  testPhase : TestPhase
  progress : ℕ
  currentTest : CurrentTest
  history : List NetworkData
deriving DecidableEq

/-- The idle initial state over a given store. -/
def initialUI (h : List NetworkData) : UIState :=
  { isRunning := false, testPhase := .idle, progress := 0
    currentTest := {}, history := h }

/-- The code of one `runSpeedTest` invocation split at its `await` points
into atomic updates of the UI state (the JS event loop can only interleave
other handlers between these segments).  The `results` local lives in the
running closure and is untouched by interleaved handlers, so its stages
are precomputed from the run inputs.  The last segment is the
`setTimeout` completion callback: it hands the record to
`onTestComplete` (= `handleTestComplete`, which appends to the store) and
returns the machine to idle. -/
def runSegments (inp : RunInputs) : List (UIState → UIState) :=
  let pr := measurePing inp.pingFetch inp.pingFallback
  let d := measureDownloadSpeed inp.dlElapsedSec
  let u := measureUploadSpeed inp.staleDownload inp.upRand
  let r0 := runResults inp
  [ fun st => { st with isRunning := true, testPhase := .ping, progress := 0 },
    fun st => { st with
      currentTest := { ping := some pr.ping, jitter := some pr.jitter }
      progress := 25, testPhase := .download },
    fun st => { st with
      currentTest := { ping := some pr.ping, jitter := some pr.jitter, download := some d }
      progress := 65, testPhase := .upload },
    fun st => { st with
      currentTest :=
        { ping := some pr.ping, jitter := some pr.jitter, download := some d
          upload := some u }
      progress := 90 },
    fun st => { st with currentTest := fullCurrent r0, progress := 100, testPhase := .complete },
    fun st => { st with history := appendStore r0 st.history
                        testPhase := .idle, isRunning := false } ]

/-- `stopTest` from SpeedTest: reset the running flag, phase, progress and
display state.  It does not touch the store and does not signal the
running closure. -/
def stopSegment : UIState → UIState :=
  fun st => { st with isRunning := false, testPhase := .idle, progress := 0
                      currentTest := {} }

/-- Run a list of event-loop segments in order. -/
def applySegments (st : UIState) (segs : List (UIState → UIState)) : UIState :=
  segs.foldl (fun s f => f s) st

/-- Concrete run inputs: all 5 ping fetches succeed in 20 ms, the three
download delays are observed as 0.1 s, 0.2 s and 0.5 s (so every sample
measures 80 Mbps), the upload draw is 3/8 (ratio 0.25), the packet loss
draw is 1/5, and there is no prior run (first run: stale `currentTest`
empty). -/
def demoInputs : RunInputs :=
  { pingFetch := fun _ => .ok 20
    pingFallback := fun _ => 0
    dlElapsedSec := ![1 / 10, 1 / 5, 1 / 2]
    upRand := 3 / 8
    plRand := 1 / 5
    now := 1700000000000
    staleDownload := none }

theorem foldl_max_mem (l : List ℚ) (a : ℚ) : l.foldl max a ∈ a :: l := by
  induction l generalizing a with
  | nil => simp
  | cons b t ih =>
      rw [List.foldl_cons]
      rcases List.mem_cons.mp (ih (max a b)) with h' | h'
      · rw [h']
        rcases max_choice a b with hm | hm <;> simp [hm]
      · exact List.mem_cons_of_mem _ (List.mem_cons_of_mem _ h')

theorem foldl_max_le (l : List ℚ) (a : ℚ) :
    a ≤ l.foldl max a ∧ ∀ x ∈ l, x ≤ l.foldl max a := by
  induction l generalizing a with
  | nil => simp
  | cons b t ih =>
      have h := ih (max a b)
      rw [List.foldl_cons]
      refine ⟨le_trans (le_max_left a b) h.1, ?_⟩
      intro x hx
      rcases List.mem_cons.mp hx with h' | h'
      · exact le_trans (by rw [h']; exact le_max_right a b) h.1
      · exact h.2 x h'

theorem foldl_min_mem (l : List ℚ) (a : ℚ) : l.foldl min a ∈ a :: l := by
  induction l generalizing a with
  | nil => simp
  | cons b t ih =>
      rw [List.foldl_cons]
      rcases List.mem_cons.mp (ih (min a b)) with h' | h'
      · rw [h']
        rcases min_choice a b with hm | hm <;> simp [hm]
      · exact List.mem_cons_of_mem _ (List.mem_cons_of_mem _ h')

theorem foldl_min_le (l : List ℚ) (a : ℚ) :
    l.foldl min a ≤ a ∧ ∀ x ∈ l, l.foldl min a ≤ x := by
  induction l generalizing a with
  | nil => simp
  | cons b t ih =>
      have h := ih (min a b)
      rw [List.foldl_cons]
      refine ⟨le_trans h.1 (min_le_left a b), ?_⟩
      intro x hx
      rcases List.mem_cons.mp hx with h' | h'
      · exact le_trans h.1 (by rw [h']; exact min_le_right a b)
      · exact h.2 x h'

theorem jsMax_spec (a : ℚ) (t : List ℚ) :
    jsMax (a :: t) ∈ a :: t ∧ ∀ x ∈ a :: t, x ≤ jsMax (a :: t) := by
  refine ⟨foldl_max_mem t a, ?_⟩
  intro x hx
  rcases List.mem_cons.mp hx with h' | h'
  · subst h'
    exact (foldl_max_le t x).1
  · exact (foldl_max_le t a).2 x h'

theorem jsMin_spec (a : ℚ) (t : List ℚ) :
    jsMin (a :: t) ∈ a :: t ∧ ∀ x ∈ a :: t, jsMin (a :: t) ≤ x := by
  refine ⟨foldl_min_mem t a, ?_⟩
  intro x hx
  rcases List.mem_cons.mp hx with h' | h'
  · subst h'
    exact (foldl_min_le t x).1
  · exact (foldl_min_le t a).2 x h'

/-- Claim C9: the ping phase takes exactly 5 timed samples; the record's
ping is the mean of the 5 samples rounded JS-style and its jitter is the
maximum sample minus the minimum sample; an exception in any sample is
caught in that iteration and replaced by the randomized fallback
`100 + Math.random() * 50`, and a successful sample contributes its
elapsed time, so the phase always produces a result and never aborts the
sequence. -/
theorem measurePing_mean_jitter_fallback (f : Fin 5 → Except Unit ℚ) (b : Fin 5 → ℚ) :
    (pingSamples f b).length = 5 ∧
    (measurePing f b).ping = jsRound ((pingSamples f b).sum / 5) ∧
    (∃ M N, M ∈ pingSamples f b ∧ N ∈ pingSamples f b ∧
      (∀ x ∈ pingSamples f b, N ≤ x ∧ x ≤ M) ∧
      (measurePing f b).jitter = jsRound (M - N)) ∧
    (∀ i, f i = .error () → pingSample f b i = 100 + b i * 50) ∧
    (∀ i d, f i = .ok d → pingSample f b i = d) := by
  have hms : pingSamples f b =
      pingSample f b 0 :: List.ofFn (fun i : Fin 4 => pingSample f b i.succ) := by
    simp [pingSamples, List.ofFn_succ]
  refine ⟨by simp [pingSamples], ?_, ?_, ?_, ?_⟩
  · show jsRound ((pingSamples f b).foldl (· + ·) 0 / ((pingSamples f b).length : ℚ)) = _
    rw [hms]
    simp only [List.ofFn_succ, List.ofFn_zero, List.foldl_cons, List.foldl_nil,
      List.sum_cons, List.sum_nil, List.length_cons, List.length_nil]
    congr 1
    push_cast
    ring
  · refine ⟨jsMax (pingSamples f b), jsMin (pingSamples f b), ?_, ?_, ?_, rfl⟩
    · rw [hms]
      exact (jsMax_spec _ _).1
    · rw [hms]
      exact (jsMin_spec _ _).1
    · intro x hx
      rw [hms] at hx ⊢
      exact ⟨(jsMin_spec _ _).2 x hx, (jsMax_spec _ _).2 x hx⟩
  · intro i hi
    simp [pingSample, hi]
  · intro i d hi
    simp [pingSample, hi]

/-- Evaluation rule for `jsRound` at concrete rationals. -/
theorem jsRound_eq {q : ℚ} {n : ℤ} (h1 : (n : ℚ) ≤ q + 1 / 2)
    (h2 : q + 1 / 2 < (n : ℚ) + 1) : jsRound q = n := by
  rw [jsRound]
  exact Int.floor_eq_iff.mpr ⟨h1, h2⟩

/-- A concrete ping phase for the C9 witness: sample 2 throws and is
replaced by the fallback, the others succeed in 30 ms. -/
def pingFetchW : Fin 5 → Except Unit ℚ :=
  fun i => if i = 2 then .error () else .ok 30

/-- The `Math.random()` draws of the catch branches for the C9 witness. -/
def pingFallbackW : Fin 5 → ℚ := fun _ => 1 / 2

/-- Witness for C9 at a concrete run in which one sample fails. -/
theorem measurePing_mean_jitter_fallback_witness :
    (pingSamples pingFetchW pingFallbackW).length = 5 ∧
    pingSample pingFetchW pingFallbackW 2 = 100 + pingFallbackW 2 * 50 ∧
    (measurePing pingFetchW pingFallbackW).ping =
      jsRound ((pingSamples pingFetchW pingFallbackW).sum / 5) ∧
    (measurePing pingFetchW pingFallbackW).ping = 49 := by
  refine ⟨(measurePing_mean_jitter_fallback pingFetchW pingFallbackW).1,
    (measurePing_mean_jitter_fallback pingFetchW pingFallbackW).2.2.2.1 2 rfl,
    (measurePing_mean_jitter_fallback pingFetchW pingFallbackW).2.1, ?_⟩
  have hsum : (pingSamples pingFetchW pingFallbackW).sum = 245 := by
    simp [pingSamples, pingSample, pingFetchW, pingFallbackW, List.ofFn_succ, Fin.succ]
    norm_num
  rw [(measurePing_mean_jitter_fallback pingFetchW pingFallbackW).2.1, hsum]
  exact jsRound_eq (by norm_num) (by norm_num)

/-- Claim C1 (code bug): invoking `stopTest` while the sequencer is in the
`download` phase resets the visible machine state at that moment, but the
already-running `runSpeedTest` invocation never observes the stop: no flag
is checked anywhere in its continuation, so it keeps executing, and its
`setTimeout` completion callback still hands the record to
`onTestComplete`, which appends it to the store.  After the full event
sequence the store has gained the run's record and progress is 100 —
contradicting "store unchanged, no record produced, progress reset". -/
theorem stop_mid_download_still_appends :
    (applySegments (initialUI []) ((runSegments demoInputs).take 2)).testPhase =
      TestPhase.download ∧
    (stopSegment (applySegments (initialUI []) ((runSegments demoInputs).take 2))).testPhase =
      TestPhase.idle ∧
    (applySegments (initialUI [])
        ((runSegments demoInputs).take 2 ++ [stopSegment] ++
          (runSegments demoInputs).drop 2)).history = [runResults demoInputs] ∧
    (applySegments (initialUI [])
        ((runSegments demoInputs).take 2 ++ [stopSegment] ++
          (runSegments demoInputs).drop 2)).history ≠ (initialUI []).history ∧
    (applySegments (initialUI [])
        ((runSegments demoInputs).take 2 ++ [stopSegment] ++
          (runSegments demoInputs).drop 2)).progress = 100 ∧
    (applySegments (initialUI [])
        ((runSegments demoInputs).take 2 ++ [stopSegment] ++
          (runSegments demoInputs).drop 2)).testPhase = TestPhase.idle := by
  refine ⟨rfl, rfl, rfl, ?_, rfl, rfl⟩
  simp [applySegments, runSegments, stopSegment, initialUI, appendStore]

/-- Claim C2 (code bug): the produced upload value is not this run's
download times the ratio.  On a first run the stale closure sees no
download and falls back to 50: with measured download 80 and ratio draw
0.25 the code yields upload 12.5, while the claim's formula gives
round1(80 × 0.25) = 20. -/
theorem upload_not_from_this_runs_download :
    (runResults demoInputs).download = 80 ∧
    (runResults demoInputs).upload = 25 / 2 ∧
    round1 ((runResults demoInputs).download * (1 / 10 + demoInputs.upRand * (2 / 5))) = 20 ∧
    (runResults demoInputs).upload ≠
      round1 ((runResults demoInputs).download * (1 / 10 + demoInputs.upRand * (2 / 5))) := by
  have hd : (runResults demoInputs).download = 80 := by
    show measureDownloadSpeed demoInputs.dlElapsedSec = 80
    have hfold : (List.ofFn fun i =>
        downloadSizes i * 8 / demoInputs.dlElapsedSec i).foldl (· + ·) 0 = 240 := by
      simp [downloadSizes, demoInputs, List.ofFn_succ, Fin.succ, Matrix.cons_val_zero,
        Matrix.cons_val_one, Matrix.head_cons]
      norm_num
    rw [measureDownloadSpeed, hfold, round1]
    rw [show ((240 : ℚ) / 3 * 10) = 800 by norm_num,
      jsRound_eq (n := 800) (by norm_num) (by norm_num)]
    norm_num
  have hu : (runResults demoInputs).upload = 25 / 2 := by
    show measureUploadSpeed demoInputs.staleDownload demoInputs.upRand = 25 / 2
    rw [show demoInputs.staleDownload = none from rfl, show demoInputs.upRand = 3 / 8 from rfl,
      measureUploadSpeed, jsOrDefault, round1]
    rw [show ((50 : ℚ) * (1 / 10 + 3 / 8 * (2 / 5)) * 10) = 125 by norm_num,
      jsRound_eq (n := 125) (by norm_num) (by norm_num)]
    norm_num
  have hclaim : round1 ((runResults demoInputs).download *
      (1 / 10 + demoInputs.upRand * (2 / 5))) = 20 := by
    rw [hd, show demoInputs.upRand = 3 / 8 from rfl, round1]
    rw [show ((80 : ℚ) * (1 / 10 + 3 / 8 * (2 / 5)) * 10) = 200 by norm_num,
      jsRound_eq (n := 200) (by norm_num) (by norm_num)]
    norm_num
  refine ⟨hd, hu, hclaim, ?_⟩
  rw [hu, hclaim]
  norm_num

/-- The sortable columns of the history table. -/
inductive SortField
  | timestamp
  | download
  | upload
  | ping
  | quality
deriving DecidableEq

/-- The two sort directions. -/
inductive SortOrder
  | asc
  | desc
deriving DecidableEq

/-- JS `String.prototype.localeCompare` for the plain ASCII strings used
here: negative, zero or positive according to lexicographic order. -/
def localeCmp (s t : String) : ℚ :=
  match compare s t with
  | .lt => -1
  | .eq => 0
  | .gt => 1

/-- The numeric value `a[sortField]` used by the comparator on the four
numeric columns. -/
def numValue (f : SortField) (a : NetworkData) : ℚ :=
  match f with
  | .timestamp => (a.timestamp : ℚ)
  | .download => a.download
  | .upload => a.upload
  | .ping => (a.ping : ℚ)
  | .quality => 0

/-- The comparator of `filteredData`'s `.sort` in ascending orientation:
the string column compares via `localeCompare`, numeric columns via
subtraction. -/
def cmpAsc (f : SortField) (a b : NetworkData) : ℚ :=
  match f with
  | .quality => localeCmp (qualityLabel a.quality) (qualityLabel b.quality)
  | _ => numValue f a - numValue f b

/-- The full comparator: descending order swaps the operands, exactly as
the code does for both the string and the numeric branch. -/
def cmpRecord (f : SortField) (o : SortOrder) (a b : NetworkData) : ℚ :=
  match o with
  | .asc => cmpAsc f a b
  | .desc => cmpAsc f b a

/-- `filteredData`'s `.sort(comparator)`.  ES2019+ `Array.prototype.sort`
must be stable, and for the consistent comparators used here the stable
sorted output is unique, so insertion sort (which is stable for the
preorder `comparator ≤ 0`) computes exactly it. -/
def sortRecords (f : SortField) (o : SortOrder) (l : List NetworkData) : List NetworkData :=
  List.insertionSort (fun a b => cmpRecord f o a b ≤ 0) l

/-- The sort-related component state of TestHistory. -/
structure SortState where
  sortField : SortField
  sortOrder : SortOrder
deriving DecidableEq

/-- `handleSort` from TestHistory: same column toggles the direction, a
new column selects it with descending direction. -/
def handleSort (f : SortField) (st : SortState) : SortState :=
  if st.sortField = f then
    { st with sortOrder := if st.sortOrder = .asc then .desc else .asc }
  else
    { sortField := f, sortOrder := .desc }

/-- JS `String.prototype.includes` on the underlying character lists. -/
def includesList (sub : List Char) : List Char → Bool
  | [] => sub.isEmpty
  | a :: t => sub.isPrefixOf (a :: t) || includesList sub t

/-- JS `s.includes(sub)`. -/
def jsIncludes (s sub : String) : Bool := includesList sub.data s.data

/-- The search predicate of `filteredData`: an empty term matches
everything; otherwise the lowercased quality label must contain the
lowercased term, or the formatted date must contain the raw term. -/
def matchesSearch (fmtDate : ℤ → String) (term : String) (t : NetworkData) : Bool :=
  (term == "") || jsIncludes (qualityLabel t.quality).toLower term.toLower ||
    jsIncludes (fmtDate t.timestamp) term

/-- The quality filter of `filteredData` (`"all"` selects everything). -/
def matchesQuality (qf : String) (t : NetworkData) : Bool :=
  (qf == "all") || (qualityLabel t.quality == qf)

/-- `filteredData` from TestHistory: filter by search AND quality on a
fresh copy of the store, then stable-sort by the selected column and
direction. -/
def filteredData (fmtDate : ℤ → String) (term qf : String) (st : SortState)
    (store : List NetworkData) : List NetworkData :=
  sortRecords st.sortField st.sortOrder
    (store.filter fun t => matchesSearch fmtDate term t && matchesQuality qf t)

/-- Two records tied on `download` but distinct, in store order. -/
def tieA : NetworkData :=
  { download := 50, upload := 10, ping := 30, jitter := 2
    packetLoss := 0, timestamp := 1, quality := .good }

/-- See `tieA`. -/
def tieB : NetworkData :=
  { download := 50, upload := 12, ping := 35, jitter := 4
    packetLoss := 0, timestamp := 2, quality := .good }

theorem cmpAsc_download_tie : cmpAsc .download tieA tieB = 0 := by
  norm_num [cmpAsc, numValue, tieA, tieB]

theorem cmpAsc_download_tie' : cmpAsc .download tieB tieA = 0 := by
  norm_num [cmpAsc, numValue, tieA, tieB]

/-- Claim C5 counterexample: on a store holding two distinct records with
equal `download`, the stable sort leaves both directions in store order,
so the ascending result is not the reverse of the descending result. -/
theorem sort_asc_desc_not_reverse_on_ties :
    sortRecords .download .asc [tieA, tieB] = [tieA, tieB] ∧
    sortRecords .download .desc [tieA, tieB] = [tieA, tieB] ∧
    sortRecords .download .asc [tieA, tieB] ≠
      (sortRecords .download .desc [tieA, tieB]).reverse := by
  have h1 : sortRecords .download .asc [tieA, tieB] = [tieA, tieB] := by
    simp [sortRecords, cmpRecord, cmpAsc_download_tie]
  have h2 : sortRecords .download .desc [tieA, tieB] = [tieA, tieB] := by
    simp [sortRecords, cmpRecord, cmpAsc_download_tie']
  refine ⟨h1, h2, ?_⟩
  rw [h1, h2]
  simp [tieA, tieB]

theorem cmpRecord_download_asc_iff (a b : NetworkData) :
    cmpRecord .download .asc a b ≤ 0 ↔ a.download ≤ b.download := by
  simp [cmpRecord, cmpAsc, numValue, sub_nonpos]

theorem cmpRecord_download_desc_iff (a b : NetworkData) :
    cmpRecord .download .desc a b ≤ 0 ↔ b.download ≤ a.download := by
  simp [cmpRecord, cmpAsc, numValue, sub_nonpos]

theorem sortRecords_perm (f : SortField) (o : SortOrder) (l : List NetworkData) :
    List.Perm (sortRecords f o l) l :=
  List.perm_insertionSort _ l

theorem sortRecords_download_asc_sorted (l : List NetworkData) :
    (sortRecords .download .asc l).Pairwise
      (fun a b => cmpRecord .download .asc a b ≤ 0) := by
  haveI : IsTotal NetworkData (fun a b => cmpRecord .download .asc a b ≤ 0) :=
    ⟨fun a b => by
      rw [cmpRecord_download_asc_iff, cmpRecord_download_asc_iff]
      exact le_total _ _⟩
  haveI : IsTrans NetworkData (fun a b => cmpRecord .download .asc a b ≤ 0) :=
    ⟨fun a b c hab hbc => by
      rw [cmpRecord_download_asc_iff] at hab hbc ⊢
      exact le_trans hab hbc⟩
  exact List.sorted_insertionSort _ l

theorem sortRecords_download_desc_sorted (l : List NetworkData) :
    (sortRecords .download .desc l).Pairwise
      (fun a b => cmpRecord .download .desc a b ≤ 0) := by
  haveI : IsTotal NetworkData (fun a b => cmpRecord .download .desc a b ≤ 0) :=
    ⟨fun a b => by
      rw [cmpRecord_download_desc_iff, cmpRecord_download_desc_iff]
      exact le_total _ _⟩
  haveI : IsTrans NetworkData (fun a b => cmpRecord .download .desc a b ≤ 0) :=
    ⟨fun a b c hab hbc => by
      rw [cmpRecord_download_desc_iff] at hab hbc ⊢
      exact le_trans hbc hab⟩
  exact List.sorted_insertionSort _ l

/-- Claim C5, amended: for inputs with pairwise-distinct download values
the ascending and descending sorts by download are exact reverses of each
other (with ties the stable sort keeps store order in both directions, see
the counterexample); toggling the current sort key flips the direction, so
two toggles restore the state and hence the displayed order; selecting a
different key defaults to descending. -/
theorem history_sort_reverse_toggle_default (l : List NetworkData) (f : SortField)
    (st : SortState) :
    (l.Pairwise (fun a b => a.download ≠ b.download) →
      sortRecords .download .asc l = (sortRecords .download .desc l).reverse) ∧
    handleSort st.sortField (handleSort st.sortField st) = st ∧
    (st.sortField ≠ f → handleSort f st = { sortField := f, sortOrder := .desc }) := by
  refine ⟨?_, ?_, ?_⟩
  · intro hne
    haveI : IsAntisymm NetworkData
        (fun a b => a.download < b.download ∨ a = b) := by
      constructor
      intro a b hab hba
      rcases hab with h | h
      · rcases hba with h' | h'
        · exact absurd h' (lt_asymm h)
        · exact h'.symm
      · exact h
    have hpermA := sortRecords_perm .download .asc l
    have hpermD := sortRecords_perm .download .desc l
    have hdneA : (sortRecords .download .asc l).Pairwise
        (fun a b => a.download ≠ b.download) :=
      (List.Perm.pairwise_iff (fun h => h.symm) hpermA).mpr hne
    have hdneDrev : ((sortRecords .download .desc l).reverse).Pairwise
        (fun a b => a.download ≠ b.download) :=
      (List.Perm.pairwise_iff (fun h => h.symm)
        ((List.reverse_perm _).trans hpermD)).mpr hne
    have hstrictA : (sortRecords .download .asc l).Pairwise
        (fun a b => a.download < b.download) := by
      refine ((sortRecords_download_asc_sorted l).and hdneA).imp ?_
      intro a b h
      exact lt_of_le_of_ne ((cmpRecord_download_asc_iff a b).mp h.1) h.2
    have hrevD : ((sortRecords .download .desc l).reverse).Pairwise
        (fun a b => cmpRecord .download .desc b a ≤ 0) :=
      List.pairwise_reverse.mpr (sortRecords_download_desc_sorted l)
    have hstrictD : ((sortRecords .download .desc l).reverse).Pairwise
        (fun a b => a.download < b.download) := by
      refine (hrevD.and hdneDrev).imp ?_
      intro a b h
      exact lt_of_le_of_ne ((cmpRecord_download_desc_iff b a).mp h.1) h.2
    have hperm : List.Perm (sortRecords .download .asc l)
        ((sortRecords .download .desc l).reverse) :=
      hpermA.trans (((List.reverse_perm _).trans hpermD).symm)
    have hsA : (sortRecords .download .asc l).Pairwise
        (fun a b : NetworkData => a.download < b.download ∨ a = b) :=
      hstrictA.imp fun h => Or.inl h
    have hsD : ((sortRecords .download .desc l).reverse).Pairwise
        (fun a b : NetworkData => a.download < b.download ∨ a = b) :=
      hstrictD.imp fun h => Or.inl h
    exact List.eq_of_perm_of_sorted hperm hsA hsD
  · cases st with
    | mk f0 o0 => cases o0 <;> simp [handleSort]
  · intro h
    simp [handleSort, h]

/-- Witness for the amended C5: concrete records with distinct downloads,
a double toggle, and a key change. -/
theorem history_sort_reverse_toggle_default_witness :
    sortRecords .download .asc [sampleRec, sampleRec2] =
      (sortRecords .download .desc [sampleRec, sampleRec2]).reverse ∧
    handleSort .download (handleSort .download ⟨.download, .asc⟩) =
      (⟨.download, .asc⟩ : SortState) ∧
    handleSort .download ⟨.timestamp, .asc⟩ = (⟨.download, .desc⟩ : SortState) := by
  refine ⟨(history_sort_reverse_toggle_default [sampleRec, sampleRec2] .download
      ⟨.download, .asc⟩).1 ?_,
    (history_sort_reverse_toggle_default [] .download ⟨.download, .asc⟩).2.1,
    (history_sort_reverse_toggle_default [] .download ⟨.timestamp, .asc⟩).2.2 (by decide)⟩
  norm_num [List.pairwise_cons, sampleRec, sampleRec2]

theorem matchesQuality_poor (t : NetworkData) :
    matchesQuality "poor" t = decide (t.quality = Quality.poor) := by
  rcases t with ⟨d, u, p, j, pl, ts, q⟩
  cases q <;> rfl

theorem matchesSearch_empty (fmtDate : ℤ → String) (t : NetworkData) :
    matchesSearch fmtDate "" t = true := by
  simp [matchesSearch]

/-- Claim C8: the history filters compose by AND: with the quality filter
set to "poor" the view shows exactly the records whose quality is poor
(the subsequent sort only permutes them), and adding a search term
restricts to the conjunction — the intersection of the two filters. -/
theorem history_filter_poor_and_search (fmtDate : ℤ → String) (term : String)
    (st : SortState) (store : List NetworkData) :
    List.Perm (filteredData fmtDate term "poor" st store)
      (store.filter fun t => matchesSearch fmtDate term t && decide (t.quality = Quality.poor)) ∧
    List.Perm (filteredData fmtDate "" "poor" st store)
      (store.filter fun t => decide (t.quality = Quality.poor)) ∧
    (∀ t, t ∈ filteredData fmtDate "" "poor" st store ↔
      t ∈ store ∧ t.quality = Quality.poor) ∧
    (store.filter fun t => matchesSearch fmtDate term t && matchesQuality "poor" t) =
      ((store.filter fun t => matchesSearch fmtDate term t).filter
        fun t => matchesQuality "poor" t) := by
  have hpred : (store.filter fun t => matchesSearch fmtDate term t && matchesQuality "poor" t) =
      store.filter fun t => matchesSearch fmtDate term t && decide (t.quality = Quality.poor) := by
    exact List.filter_congr fun t _ => by rw [matchesQuality_poor]
  have h1 : List.Perm (filteredData fmtDate term "poor" st store)
      (store.filter fun t =>
        matchesSearch fmtDate term t && decide (t.quality = Quality.poor)) := by
    rw [filteredData, ← hpred]
    exact sortRecords_perm _ _ _
  have hpred0 : (store.filter fun t => matchesSearch fmtDate "" t && matchesQuality "poor" t) =
      store.filter fun t => decide (t.quality = Quality.poor) := by
    exact List.filter_congr fun t _ => by
      rw [matchesQuality_poor, matchesSearch_empty, Bool.true_and]
  have h2 : List.Perm (filteredData fmtDate "" "poor" st store)
      (store.filter fun t => decide (t.quality = Quality.poor)) := by
    rw [filteredData, ← hpred0]
    exact sortRecords_perm _ _ _
  refine ⟨h1, h2, ?_, ?_⟩
  · intro t
    rw [h2.mem_iff, List.mem_filter]
    simp
  · rw [List.filter_filter]
    exact List.filter_congr fun t _ => by rw [Bool.and_comm]

/-- One element of `chartData` in PerformanceCharts: the per-record
projection plus a 1-based test index and a formatted time label. -/
structure ChartPoint where
  test : ℕ
  download : ℚ
  upload : ℚ
  ping : ℤ
  jitter : ℤ
  packetLoss : ℚ
  timeLabel : String
  quality : Quality
deriving DecidableEq

/-- `chartData` from PerformanceCharts: `testHistory.slice(0, 20)` (the 20
most recent records), reversed to chronological order, mapped to chart
points with index + 1. -/
def chartData (fmtTime : ℤ → String) (store : List NetworkData) : List ChartPoint :=
  ((store.take 20).reverse.enum).map fun p =>
    { test := p.1 + 1, download := p.2.download, upload := p.2.upload
      ping := p.2.ping, jitter := p.2.jitter, packetLoss := p.2.packetLoss
      timeLabel := fmtTime p.2.timestamp, quality := p.2.quality }

/-- `qualityData` from PerformanceCharts:
`testHistory.reduce((acc, test) => { acc[test.quality] = (acc[test.quality] || 0) + 1; return acc }, {})`
— note the reduce runs over the whole store, not the 20 charted records. -/
def qualityCounts (store : List NetworkData) : Quality → ℕ :=
  store.foldl (fun acc t => fun q => if q = t.quality then acc q + 1 else acc q)
    (fun _ => 0)

/-- The summary block of PerformanceCharts. -/
structure SummaryStats where
  avgDownload : ℚ
  avgUpload : ℚ
  avgPing : ℚ
  maxDownload : ℚ
  minPing : ℚ
deriving DecidableEq

/-- `stats` from PerformanceCharts: computed over the entire store when it
is nonempty, `null` otherwise. -/
def statsOf (store : List NetworkData) : Option SummaryStats :=
  if 0 < store.length then
    some { avgDownload := store.foldl (fun s t => s + t.download) 0 / store.length
           avgUpload := store.foldl (fun s t => s + t.upload) 0 / store.length
           avgPing := store.foldl (fun s t => s + (t.ping : ℚ)) 0 / store.length
           maxDownload := jsMax (store.map fun t => t.download)
           minPing := jsMin (store.map fun t => (t.ping : ℚ)) }
  else none

theorem qualityCounts_foldl (l : List NetworkData) (acc : Quality → ℕ) (q : Quality) :
    l.foldl (fun a t => fun q2 => if q2 = t.quality then a q2 + 1 else a q2) acc q =
      acc q + l.countP (fun t => decide (t.quality = q)) := by
  induction l generalizing acc with
  | nil => simp
  | cons t ts ih =>
      rw [List.foldl_cons, ih, List.countP_cons]
      by_cases h : q = t.quality
      · simp only [if_pos h, decide_eq_true_eq, h, if_true, eq_self_iff_true]
        omega
      · simp only [if_neg h, decide_eq_true_eq]
        rw [if_neg fun hh => h hh.symm]
        omega

theorem qualityCounts_eq_countP (store : List NetworkData) (q : Quality) :
    qualityCounts store q = store.countP fun t => decide (t.quality = q) := by
  rw [qualityCounts, qualityCounts_foldl]
  simp

theorem foldl_add_proj (f : NetworkData → ℚ) (l : List NetworkData) (a : ℚ) :
    l.foldl (fun s t => s + f t) a = a + (l.map f).sum := by
  induction l generalizing a with
  | nil => simp
  | cons t ts ih =>
      rw [List.foldl_cons, ih]
      simp [add_assoc]

/-- Claim C6, amended: the chart series is the most recent 20 records in
chronological (reversed) order, but the quality distribution — like the
summary statistics — is computed over the entire store, not over those 20
records. -/
theorem chart_series_20_buckets_and_stats_whole_store (fmtTime : ℤ → String)
    (store : List NetworkData) (h : store ≠ []) :
    (∀ q, qualityCounts store q = store.countP fun t => decide (t.quality = q)) ∧
    (chartData fmtTime store).length = min 20 store.length ∧
    (chartData fmtTime store).map (fun p => p.download) =
      ((store.take 20).map fun t => t.download).reverse ∧
    (∃ S, statsOf store = some S ∧
      S.avgDownload = (store.map fun t => t.download).sum / store.length ∧
      S.maxDownload ∈ store.map (fun t => t.download) ∧
      (∀ x ∈ store.map (fun t => t.download), x ≤ S.maxDownload) ∧
      S.minPing ∈ store.map (fun t => (t.ping : ℚ)) ∧
      (∀ x ∈ store.map (fun t => (t.ping : ℚ)), S.minPing ≤ x)) := by
  refine ⟨fun q => qualityCounts_eq_countP store q, ?_, ?_, ?_⟩
  · simp [chartData]
  · simp only [chartData, List.map_map, List.map_reverse]
    have : ((store.take 20).reverse.enum.map fun p => p.2.download) =
        (store.take 20).reverse.map fun t => t.download := by
      rw [show (fun p : ℕ × NetworkData => p.2.download) =
        (fun t : NetworkData => t.download) ∘ Prod.snd from rfl]
      rw [← List.map_map, List.enum_map_snd]
    simpa [List.map_map, Function.comp] using this
  · have hlen : 0 < store.length := List.length_pos.mpr h
    refine ⟨_, by rw [statsOf, if_pos hlen], ?_, ?_, ?_, ?_, ?_⟩
    · simp only
      rw [foldl_add_proj, zero_add]
    · obtain ⟨x, xs, hx⟩ := List.exists_cons_of_ne_nil h
      simp only
      rw [hx, List.map_cons]
      exact (jsMax_spec _ _).1
    · obtain ⟨x, xs, hx⟩ := List.exists_cons_of_ne_nil h
      intro y hy
      simp only
      rw [hx, List.map_cons] at hy ⊢
      exact (jsMax_spec _ _).2 y hy
    · obtain ⟨x, xs, hx⟩ := List.exists_cons_of_ne_nil h
      simp only
      rw [hx, List.map_cons]
      exact (jsMin_spec _ _).1
    · obtain ⟨x, xs, hx⟩ := List.exists_cons_of_ne_nil h
      intro y hy
      simp only
      rw [hx, List.map_cons] at hy ⊢
      exact (jsMin_spec _ _).2 y hy

/-- Witness for the amended C6 on a one-record store. -/
theorem chart_series_20_buckets_and_stats_whole_store_witness :
    (∀ q, qualityCounts [sampleRec] q =
      [sampleRec].countP fun t => decide (t.quality = q)) ∧
    (chartData (fun _ => "") [sampleRec]).length = min 20 [sampleRec].length ∧
    (chartData (fun _ => "") [sampleRec]).map (fun p => p.download) =
      (([sampleRec].take 20).map fun t => t.download).reverse ∧
    (∃ S, statsOf [sampleRec] = some S ∧
      S.avgDownload = ([sampleRec].map fun t => t.download).sum / [sampleRec].length ∧
      S.maxDownload ∈ [sampleRec].map (fun t => t.download) ∧
      (∀ x ∈ [sampleRec].map (fun t => t.download), x ≤ S.maxDownload) ∧
      S.minPing ∈ [sampleRec].map (fun t => (t.ping : ℚ)) ∧
      (∀ x ∈ [sampleRec].map (fun t => (t.ping : ℚ)), S.minPing ≤ x)) :=
  chart_series_20_buckets_and_stats_whole_store (fun _ => "") [sampleRec] (by simp)

/-- A record classified excellent, for the C6 counterexample. -/
def excelRec : NetworkData :=
  { download := 200, upload := 50, ping := 10, jitter := 1
    packetLoss := 0, timestamp := 100, quality := .excellent }

/-- A record classified poor, for the C6 counterexample. -/
def poorRec : NetworkData :=
  { download := 5, upload := 1, ping := 300, jitter := 50
    packetLoss := 2, timestamp := 0, quality := .poor }

/-- A 21-record store whose oldest (21st) record is the only poor one. -/
def store21 : List NetworkData := List.replicate 20 excelRec ++ [poorRec]

/-- Claim C6 counterexample: the code's quality distribution counts the
poor record that is outside the 20 most recent records, so it is not the
bucketing of the most recent 20 records that the claim describes. -/
theorem chart_quality_buckets_not_last20 :
    qualityCounts store21 Quality.poor = 1 ∧
    ((store21.take 20).countP fun t => decide (t.quality = Quality.poor)) = 0 ∧
    qualityCounts store21 Quality.poor ≠
      ((store21.take 20).countP fun t => decide (t.quality = Quality.poor)) := by
  have h1 : qualityCounts store21 Quality.poor = 1 := by
    rw [qualityCounts_eq_countP]
    simp [store21, List.countP_append, excelRec, poorRec, List.countP_eq_zero]
  have h2 : ((store21.take 20).countP fun t => decide (t.quality = Quality.poor)) = 0 := by
    have ht : store21.take 20 = List.replicate 20 excelRec := by
      simp [store21, List.take_append_of_le_length]
    rw [ht]
    simp [List.countP_eq_zero, excelRec]
  exact ⟨h1, h2, by rw [h1, h2]; norm_num⟩

/-- JS `Number.prototype.toFixed(1)` on the values exported here: round to
one decimal and print with exactly one fractional digit (negative values,
which the program never produces, carry a sign prefix). -/
def toFixed1 (q : ℚ) : String :=
  (if q < 0 then "-" else "") ++
    toString ((jsRound (|q| * 10)).toNat / 10) ++ "." ++
    toString ((jsRound (|q| * 10)).toNat % 10)

/-- Left-pad a sub-hundred numeral to two digits. -/
def pad2 (m : ℕ) : String := if m < 10 then "0" ++ toString m else toString m

/-- JS `Number.prototype.toFixed(2)`, see `toFixed1`. -/
def toFixed2 (q : ℚ) : String :=
  (if q < 0 then "-" else "") ++
    toString ((jsRound (|q| * 100)).toNat / 100) ++ "." ++
    pad2 ((jsRound (|q| * 100)).toNat % 100)

/-- The fixed header row of `exportToCSV`. -/
def csvHeaders : List String :=
  ["Date", "Time", "Download (Mbps)", "Upload (Mbps)", "Ping (ms)", "Jitter (ms)",
   "Packet Loss (%)", "Quality"]

/-- One data row of `exportToCSV` before quoting. -/
def csvRow (fmtDate fmtTime : ℤ → String) (t : NetworkData) : List String :=
  [fmtDate t.timestamp, fmtTime t.timestamp, toFixed1 t.download, toFixed1 t.upload,
   toString t.ping, toString t.jitter, toFixed2 t.packetLoss, qualityLabel t.quality]

/-- The template-literal quoting of each cell. -/
def quoteCell (c : String) : String := "\"" ++ c ++ "\""

/-- `[headers, ...csvData]` with every cell quoted. -/
def csvTable (fmtDate fmtTime : ℤ → String) (rows : List NetworkData) :
    List (List String) :=
  (csvHeaders :: rows.map (csvRow fmtDate fmtTime)).map fun row => row.map quoteCell

/-- The final CSV string: rows joined with commas, lines with newlines. -/
def csvContent (fmtDate fmtTime : ℤ → String) (rows : List NetworkData) : String :=
  String.intercalate "\n" ((csvTable fmtDate fmtTime rows).map (String.intercalate ","))

theorem pad2_length (m : ℕ) (h : m < 100) : (pad2 m).length = 2 := by
  revert h
  revert m
  decide

theorem toString_digit_length (d : ℕ) (h : d < 10) : (toString d).length = 1 := by
  revert h
  revert d
  decide

/-- Claim C7: CSV export of an n-record view is a fixed header row plus
exactly n data rows, each with exactly 8 fields, every field wrapped in
double quotes; download and upload print with exactly one decimal digit
(45 prints as "45.0") and packet loss with exactly two. -/
theorem csv_export_shape (fmtDate fmtTime : ℤ → String) (view : List NetworkData) :
    (csvTable fmtDate fmtTime view).length = view.length + 1 ∧
    (∀ row ∈ csvTable fmtDate fmtTime view, row.length = 8) ∧
    (∀ row ∈ csvTable fmtDate fmtTime view, ∀ cell ∈ row,
      ∃ c, cell = "\"" ++ c ++ "\"") ∧
    (csvTable fmtDate fmtTime view).head? = some (csvHeaders.map quoteCell) ∧
    (∀ t ∈ view, (csvRow fmtDate fmtTime t).map quoteCell ∈ csvTable fmtDate fmtTime view) ∧
    toFixed1 45 = "45.0" ∧
    toFixed2 (1 / 2) = "0.50" ∧
    (∀ q : ℚ, ∃ (s : String) (d : ℕ), d < 10 ∧
      toFixed1 q = s ++ "." ++ toString d ∧ (toString d).length = 1) ∧
    (∀ q : ℚ, ∃ s t : String, toFixed2 q = s ++ "." ++ t ∧ t.length = 2) := by
  refine ⟨by simp [csvTable], ?_, ?_, rfl, ?_, ?_, ?_, ?_, ?_⟩
  · intro row hrow
    simp only [csvTable, List.mem_map, List.mem_cons] at hrow
    obtain ⟨base, hbase, rfl⟩ := hrow
    rcases hbase with rfl | hbase
    · simp [csvHeaders]
    · obtain ⟨t, _, rfl⟩ := hbase
      simp [csvRow]
  · intro row hrow cell hcell
    simp only [csvTable, List.mem_map] at hrow
    obtain ⟨base, _, rfl⟩ := hrow
    obtain ⟨c, _, rfl⟩ := List.mem_map.mp hcell
    exact ⟨c, rfl⟩
  · intro t ht
    simp only [csvTable, List.mem_map, List.mem_cons]
    exact ⟨csvRow fmtDate fmtTime t, Or.inr ⟨t, ht, rfl⟩, rfl⟩
  · rw [toFixed1, if_neg (by norm_num), show |(45 : ℚ)| * 10 = 450 by norm_num,
      jsRound_eq (n := 450) (by norm_num) (by norm_num)]
    rfl
  · rw [toFixed2, if_neg (by norm_num), show |(1 / 2 : ℚ)| * 100 = 50 by
        rw [abs_of_nonneg (by norm_num : (0 : ℚ) ≤ 1 / 2)]; norm_num,
      jsRound_eq (n := 50) (by norm_num) (by norm_num)]
    rfl
  · intro q
    refine ⟨(if q < 0 then "-" else "") ++ toString ((jsRound (|q| * 10)).toNat / 10),
      (jsRound (|q| * 10)).toNat % 10, Nat.mod_lt _ (by norm_num), ?_, ?_⟩
    · rw [toFixed1]
    · exact toString_digit_length _ (Nat.mod_lt _ (by norm_num))
  · intro q
    refine ⟨(if q < 0 then "-" else "") ++ toString ((jsRound (|q| * 100)).toNat / 100),
      pad2 ((jsRound (|q| * 100)).toNat % 100), ?_, ?_⟩
    · rw [toFixed2]
    · exact pad2_length _ (Nat.mod_lt _ (by norm_num))

/-- Witness for C7 on a one-record view. -/
theorem csv_export_shape_witness :
    (csvTable (fun _ => "d") (fun _ => "t") [sampleRec]).length = [sampleRec].length + 1 ∧
    (csvHeaders.map quoteCell).length = 8 ∧
    toFixed1 45 = "45.0" := by
  refine ⟨(csv_export_shape (fun _ => "d") (fun _ => "t") [sampleRec]).1,
    (csv_export_shape (fun _ => "d") (fun _ => "t") [sampleRec]).2.1
      (csvHeaders.map quoteCell) ?_,
    (csv_export_shape (fun _ => "d") (fun _ => "t") [sampleRec]).2.2.2.2.2.1⟩
  simp [csvTable]

/-- Witness for C8 on a concrete store and search term. -/
theorem history_filter_poor_and_search_witness :
    List.Perm
      (filteredData (fun _ => "1/1/2024") "poor" "poor" ⟨.timestamp, .desc⟩
        [sampleRec, poorRec])
      (([sampleRec, poorRec]).filter fun t =>
        matchesSearch (fun _ => "1/1/2024") "poor" t && decide (t.quality = Quality.poor)) ∧
    (∀ t, t ∈ filteredData (fun _ => "1/1/2024") "" "poor" ⟨.timestamp, .desc⟩
        [sampleRec, poorRec] ↔
      t ∈ [sampleRec, poorRec] ∧ t.quality = Quality.poor) :=
  ⟨(history_filter_poor_and_search (fun _ => "1/1/2024") "poor" ⟨.timestamp, .desc⟩
      [sampleRec, poorRec]).1,
   (history_filter_poor_and_search (fun _ => "1/1/2024") "poor" ⟨.timestamp, .desc⟩
      [sampleRec, poorRec]).2.2.1⟩

/-- The component state of the history view: the store (owned by the
parent and passed as a prop) together with the view's own filter and sort
state. -/
structure HistoryState where
  store : List NetworkData
  searchTerm : String
  qualityFilter : String
  sort : SortState
deriving DecidableEq

/-- The user-triggered operations of the history view. -/
inductive HistoryOp where
  | setSearch (s : String)
  | setQualityFilter (q : String)
  | clickSort (f : SortField)
  | exportCSV
  | exportJSON
  | clickClear

/-- One history-view event handler.  The export handlers compute their
artifact from `filteredData` — a sort applied to the fresh array returned
by `filter`, never to the store itself — and change no state;
`clearHistory` only shows a toast ("this would clear all test history in a
real implementation").  `jsonRender` abstracts `JSON.stringify(·, null, 2)`. -/
def applyOp (fmtDate fmtTime : ℤ → String) (jsonRender : List NetworkData → String)
    (st : HistoryState) : HistoryOp → HistoryState × Option String
  | .setSearch s => ({ st with searchTerm := s }, none)
  | .setQualityFilter q => ({ st with qualityFilter := q }, none)
  | .clickSort f => ({ st with sort := handleSort f st.sort }, none)
  | .exportCSV => (st, some (csvContent fmtDate fmtTime
      (filteredData fmtDate st.searchTerm st.qualityFilter st.sort st.store)))
  | .exportJSON => (st, some (jsonRender
      (filteredData fmtDate st.searchTerm st.qualityFilter st.sort st.store)))
  | .clickClear => (st, none)

/-- Run a sequence of history-view operations. -/
def applyOps (fmtDate fmtTime : ℤ → String) (jsonRender : List NetworkData → String)
    (st : HistoryState) : List HistoryOp → HistoryState
  | [] => st
  | op :: ops => applyOps fmtDate fmtTime jsonRender
      (applyOp fmtDate fmtTime jsonRender st op).1 ops

/-- Claim C10: no sequence of history-view operations — searching,
filtering, sort toggles, CSV export, JSON export, or the clear button —
changes the store: the records and their order are exactly as before. -/
theorem history_ops_preserve_store (fmtDate fmtTime : ℤ → String)
    (jsonRender : List NetworkData → String) (st : HistoryState)
    (ops : List HistoryOp) :
    (applyOps fmtDate fmtTime jsonRender st ops).store = st.store := by
  induction ops generalizing st with
  | nil => rfl
  | cons op ops ih =>
      rw [applyOps, ih]
      cases op <;> rfl
